import Mathlib

/-!
The job pipeline of dita-ot-batch-worker, `docker/main.go`

A shallow embedding of the worker's four functions (`readArgs`, `getClasspath`,
`convert`, `main`) and of the Go library functions they rest on, on Unix
(`filepath.Clean`, `filepath.Join`, `filepath.Ext`, `strings.HasPrefix`,
`strings.Join`, string slicing).

Conventions.
* A Go string is a sequence of bytes; it is modelled as a list, one element a
  byte. Every operation the program applies to strings (prefix test, slicing,
  path cleaning, joining) is byte-wise.
* A Go `error` value is modelled by its message (what `%v` prints).
* What the operating system, the network and the subprocess answer is input of
  the model (`World`): the environment, the URL parser, `ioutil.TempDir`, the
  sequence of paths `filepath.Walk` visits, what `os.Open` and the scanner
  deliver, the outcome of `cmd.Run`, and of the two transfer calls.
* `log.Fatalf`, `log.Fatal` and a runtime panic end the process; they are the
  `Fault` a run ends with. The calls that leave the process are recorded in a
  trace of `Event`s.
-/

namespace DitaWorker

/-- A Go string: a sequence of bytes. -/
abbrev GoString := List Char

/-- A Go `error`, by its message. -/
abbrev GoError := GoString

/-! ## Library functions -/

/-- Go's `os.PathSeparator` on Unix. -/
def Separator : Char := '/'

/-- Go's `os.PathListSeparator` on Unix. -/
def PathListSeparator : Char := ':'

/-- Go's `os.IsPathSeparator` on Unix. -/
def IsPathSeparator (c : Char) : Bool := c == Separator

/-- Go's `strings.HasPrefix(s, p)`. -/
def HasPrefix (s p : GoString) : Bool := p.isPrefixOf s

/-- Go's `strings.Join(elems, sep)`: the elements with `sep` between each two. -/
def stringsJoin : List GoString → GoString → GoString
  | [], _ => []
  | [e], _ => e
  | e :: e' :: es, sep => e ++ sep ++ stringsJoin (e' :: es) sep

/-- The slice expression `s[lo:hi]` of a string: `none` stands for the runtime
panic "slice bounds out of range", raised unless `0 ≤ lo ≤ hi ≤ len(s)`. -/
def goSlice (s : GoString) (lo hi : Int) : Option GoString :=
  if 0 ≤ lo ∧ lo ≤ hi ∧ hi ≤ (s.length : Int) then
    some ((s.take hi.toNat).drop lo.toNat)
  else none

/-- The loop of `filepath.Ext`, reading the path from its last byte: `acc` is
what was read so far. -/
def extLoop : List Char → List Char → GoString
  | [], _ => []
  | c :: r, acc =>
    if IsPathSeparator c then []
    else if c = '.' then c :: acc
    else extLoop r (c :: acc)

/-- Go's `filepath.Ext(path)`: the suffix beginning at the final dot in the final
element of `path`; empty if there is no dot. -/
def Ext (path : GoString) : GoString := extLoop path.reverse []

/-- The inner loop of the `..` case of `filepath.Clean`:
`for out.w > dotdot && !os.IsPathSeparator(out.index(out.w)) { out.w-- }`. -/
def backtrack (out : List Char) (dotdot : Nat) : Nat → Nat
  | 0 => 0
  | w + 1 =>
    if w + 1 > dotdot ∧ out.get? (w + 1) ≠ some Separator then backtrack out dotdot w
    else w + 1

/-- The main loop of `filepath.Clean` on Unix: `rest` is `path[r:]`, `out` the
buffer `out.buf[:out.w]`. Every round reads at least one byte, so `fuel` at
least the length of `rest` lets the loop run to its end. -/
def cleanLoop (rooted : Bool) : Nat → List Char → List Char → Nat → List Char
  | 0, _, out, _ => out
  | fuel + 1, rest, out, dotdot =>
    match rest with
    | [] => out
    | c :: t =>
      if IsPathSeparator c then
        -- empty path element
        cleanLoop rooted fuel t out dotdot
      else if c = '.' ∧ (t = [] ∨ t.head? = some Separator) then
        -- . element
        cleanLoop rooted fuel t out dotdot
      else if c = '.' ∧ t.head? = some '.' ∧
          (t.tail = [] ∨ t.tail.head? = some Separator) then
        -- .. element: remove to last separator
        if out.length > dotdot then
          cleanLoop rooted fuel t.tail (out.take (backtrack out dotdot (out.length - 1))) dotdot
        else if !rooted then
          let out1 := if out.length > 0 then out ++ [Separator] else out
          let out2 := out1 ++ ['.', '.']
          cleanLoop rooted fuel t.tail out2 out2.length
        else
          cleanLoop rooted fuel t.tail out dotdot
      else
        -- real path element: add slash if needed, copy element
        let out1 :=
          if (rooted ∧ out.length ≠ 1) ∨ (¬ rooted ∧ out.length ≠ 0) then out ++ [Separator]
          else out
        cleanLoop rooted fuel (rest.dropWhile (fun x => !IsPathSeparator x))
          (out1 ++ rest.takeWhile (fun x => !IsPathSeparator x)) dotdot

/-- Go's `filepath.Clean(path)` on Unix (no volume name). -/
def Clean (path : GoString) : GoString :=
  if path = [] then ['.']
  else
    let rooted := (path.head?.map IsPathSeparator).getD false
    let out := cleanLoop rooted (path.length + 1) (if rooted then path.tail else path)
      (if rooted then [Separator] else []) (if rooted then 1 else 0)
    if out = [] then ['.'] else out

/-- Go's `filepath.Join(a, b)` on Unix: the first non-empty element and all that
follow it, joined with the separator and cleaned; empty if both are empty. -/
def Join (a b : GoString) : GoString :=
  if a ≠ [] then Clean (stringsJoin [a, b] [Separator])
  else if b ≠ [] then Clean (stringsJoin [b] [Separator])
  else []

/-! ## The world outside the process -/

/-- How a run ends when it does not end normally: one constructor for each
`log.Fatalf`/`log.Fatal` of the source, with the cause it prints, and one for the
runtime panic of the slice expression in `getClasspath`. -/
inductive Fault where
  /-- Raised by `log.Fatalf("Input environment variable not set")`. -/
  | inputNotSet
  /-- Raised by `log.Fatalf("Output environment variable not set")`. -/
  | outputNotSet
  /-- Raised by `log.Fatalf("Failed to parse input argument %s: %v", input, err)`. -/
  | parseInput (input : GoString) (err : GoError)
  /-- Raised by `log.Fatalf("Failed to parse output argument %s: %v", output, err)`. -/
  | parseOutput (output : GoString) (err : GoError)
  /-- Raised by `log.Fatalf("Failed to create temporary directory: %v", err)`. -/
  | tempDir (err : GoError)
  /-- Raised by `log.Fatalf("Failed to open env.sh: %v", err)`. -/
  | openEnv (err : GoError)
  /-- Raised by `log.Fatal(err)` after the scan of env.sh. -/
  | scanEnv (err : GoError)
  /-- The runtime panic "slice bounds out of range [lo:hi]" of a slice
  expression: `line[33:len(line)-1]` in `getClasspath`, `os.Args[1:]` in
  `readArgs`. -/
  | sliceBounds (lo hi : Int)
  /-- Raised by `log.Fatalf("Failed to download %s: %v", args.src, err)`. -/
  | download (err : GoError)
  /-- Raised by `log.Fatalf("Failed to convert %s: %v", args.tmp, err)`. -/
  | convert (tmp : GoString) (err : GoError)
  /-- Raised by `log.Fatalf("Failed to upload %s: %v", args.dst, err)`. -/
  | upload (err : GoError)
  deriving DecidableEq, Repr

/-- A call that leaves the worker's own code, or the entry into `convert`.
`U` is the type of parsed URLs (`*url.URL`). -/
inductive Event (U : Type) where
  /-- The call `ioutil.TempDir(dir, pattern)`. -/
  | tempDir (dir pattern : GoString)
  /-- The call `kuhnuri.DownloadFile(src, tmp)`: the fetch stage. -/
  | download (src : U) (tmp : GoString)
  /-- Entry into `convert(src, dstDir, args)`: the convert stage. -/
  | convert (src dstDir : GoString) (args : List GoString)
  /-- The call `fmt.Printf("Args: %s", cmd.Args)`. -/
  | printArgs (cmdArgs : List GoString)
  /-- The call `cmd.Run()` on the command with these `Args`: the subprocess. -/
  | run (cmdArgs : List GoString)
  /-- The call `kuhnuri.UploadFile(out, dst)`: the publish stage. -/
  | upload (out : GoString) (dst : U)
  deriving DecidableEq, Repr

/-- What `os.Open` on env.sh followed by a `bufio.Scanner` delivers: the lines
`scn.Text()` returns, in order, until `scn.Scan()` is false, and then the
scanner's error `scn.Err()`, if any. -/
structure EnvFile where
  lines : List GoString
  scanErr : Option GoError
  deriving DecidableEq, Repr

/-- The answers of everything outside the worker's code. -/
structure World (U : Type) where
  /-- The process environment: the value of a variable, if it is set. -/
  environ : GoString → Option GoString
  /-- The command line, `os.Args`. -/
  osArgs : List GoString
  /-- The call `url.Parse`. -/
  urlParse : GoString → Except GoError U
  /-- The call `ioutil.TempDir(dir, pattern)`. -/
  tempDir : GoString → GoString → Except GoError GoString
  /-- The paths `filepath.Walk(root, fn)` calls `fn` with, in order: the root
  itself and every file and directory under it. -/
  walk : GoString → List GoString
  /-- Whether a path is a directory: what `info.IsDir()` answers for the
  `os.FileInfo` the walk passes to `fn` with the path. -/
  isDir : GoString → Bool
  /-- The call `os.Open(path)` and the scan of the file. -/
  openFile : GoString → Except GoError EnvFile
  /-- The call `cmd.Run()`: `none` when the subprocess ran and exited with status 0, the
  error otherwise (it could not be started, or it exited with another status). -/
  run : List GoString → Option GoError
  /-- The call `kuhnuri.DownloadFile(src, tmp)`: the local path of the download. -/
  download : U → GoString → Except GoError GoString
  /-- The call `kuhnuri.UploadFile(out, dst)`. -/
  upload : GoString → U → Option GoError

/-- A run of a piece of the program: the calls it made, and its result or the
fault that ended the process. -/
structure Run (U : Type) (α : Type) where
  result : Except Fault α
  trace : List (Event U)

/-- Sequencing: the second piece runs only if the first returned. -/
def Run.bind {U α β : Type} (x : Run U α) (f : α → Run U β) : Run U β :=
  match x.result with
  | .error e => ⟨.error e, x.trace⟩
  | .ok a => ⟨(f a).result, x.trace ++ (f a).trace⟩

instance {U : Type} : Monad (Run U) where
  pure a := ⟨.ok a, []⟩
  bind := Run.bind

/-- The process ends here (`log.Fatalf`, a panic). -/
def die {U α : Type} (f : Fault) : Run U α := ⟨.error f, []⟩

/-- Record a call. -/
def emit {U : Type} (e : Event U) : Run U Unit := ⟨.ok (), [e]⟩

/-- Go's `os.Getenv(key)`: the empty string if the variable is not set. -/
def Getenv {U : Type} (w : World U) (key : GoString) : GoString :=
  (w.environ key).getD []

/-- The call `ioutil.TempDir(dir, pattern)`. -/
def callTempDir {U : Type} (w : World U) (dir pattern : GoString) :
    Run U (Except GoError GoString) :=
  ⟨.ok (w.tempDir dir pattern), [.tempDir dir pattern]⟩

/-- The call `kuhnuri.DownloadFile(src, tmp)`. -/
def callDownload {U : Type} (w : World U) (src : U) (tmp : GoString) :
    Run U (Except GoError GoString) :=
  ⟨.ok (w.download src tmp), [.download src tmp]⟩

/-- The call `kuhnuri.UploadFile(out, dst)`. -/
def callUpload {U : Type} (w : World U) (out : GoString) (dst : U) :
    Run U (Option GoError) :=
  ⟨.ok (w.upload out dst), [.upload out dst]⟩

/-- The call `cmd.Run()` on a command with the given `Args`. -/
def callRun {U : Type} (w : World U) (cmdArgs : List GoString) : Run U (Option GoError) :=
  ⟨.ok (w.run cmdArgs), [.run cmdArgs]⟩

/-- A computation that makes no call: it returns, or ends the process. -/
def liftFault {U α : Type} (x : Except Fault α) : Run U α := ⟨x, []⟩

/-! ## The program -/

/-- The struct `Args`. -/
structure Args (U : Type) where
  src : U
  dst : U
  tmp : GoString
  out : GoString
  args : List GoString

/-- The function `readArgs`. -/
def readArgs {U : Type} (w : World U) : Run U (Args U) := do
  let input := Getenv w "input".toList
  if input = [] then
    die Fault.inputNotSet
  let output := Getenv w "output".toList
  if output = [] then
    die Fault.outputNotSet
  match w.urlParse input with
  | .error err => die (Fault.parseInput input err)
  | .ok src =>
  match w.urlParse output with
  | .error err => die (Fault.parseOutput output err)
  | .ok dst =>
  match ← callTempDir w [] "tmp".toList with
  | .error err => die (Fault.tempDir err)
  | .ok tmp =>
  match ← callTempDir w [] "out".toList with
  | .error err => die (Fault.tempDir err)
  | .ok out =>
  -- os.Args[1:]
  match w.osArgs with
  | [] => die (Fault.sliceBounds 1 0)
  | _ :: rest => pure ⟨src, dst, tmp, out, rest⟩

/-- The callback `getClasspath` passes to `filepath.Walk`, applied to the paths
of the walk in order: a path whose extension is `.jar` is appended. The
callback reads neither `info` nor `err`, so a directory is appended like a
regular file; it returns nil always, so the walk is never cut short. -/
def walkJars (paths : List GoString) (jars : List GoString) : List GoString :=
  paths.foldl (fun jars src => if Ext src = ".jar".toList then jars ++ [src] else jars) jars

/-- The body of the scan loop of `getClasspath` for one line. -/
def scanLine (base : GoString) (jars : List GoString) (line : GoString) :
    Except Fault (List GoString) :=
  if HasPrefix line "CLASSPATH".toList then
    match goSlice line 33 ((line.length : Int) - 1) with
    | none => .error (Fault.sliceBounds 33 ((line.length : Int) - 1))
    | some f => .ok (jars ++ [Join base f])
  else .ok jars

/-- The scan loop of `getClasspath`: `for scn.Scan() { ... }`. -/
def scanLines (base : GoString) : List GoString → List GoString → Except Fault (List GoString)
  | [], jars => .ok jars
  | line :: rest, jars =>
    match scanLine base jars line with
    | .error f => .error f
    | .ok jars' => scanLines base rest jars'

/-- The value of `jars` when `getClasspath` reaches its `return`. (The second
`if err != nil` of the source tests the error of `os.Open` again, which is nil
there.) -/
def classpathEntries {U : Type} (w : World U) (base : GoString) : Except Fault (List GoString) :=
  let jars : List GoString := []
  let jars := jars ++ [Join base "config".toList]
  let jars := walkJars (w.walk base) jars
  match w.openFile (Join base "config/env.sh".toList) with
  | .error err => .error (Fault.openEnv err)
  | .ok env =>
    match scanLines base env.lines jars with
    | .error f => .error f
    | .ok jars =>
      match env.scanErr with
      | some err => .error (Fault.scanEnv err)
      | none => .ok jars

/-- The function `getClasspath`. -/
def getClasspath {U : Type} (w : World U) (base : GoString) : Except Fault GoString :=
  match classpathEntries w base with
  | .error f => .error f
  | .ok jars => .ok (stringsJoin jars [PathListSeparator])

/-- Go's `exec.Command(name, arg...)`: the `Args` of the command. -/
def execCommand (name : GoString) (arg : List GoString) : List GoString := name :: arg

/-- The function `convert`: the returned `error`, `none` for nil. -/
def convert {U : Type} (w : World U) (src dstDir : GoString) (args : List GoString) :
    Run U (Option GoError) := do
  emit (Event.convert src dstDir args)
  let base := "/opt/app".toList
  let cp ← liftFault (getClasspath w base)
  let cmdArgs := execCommand "java".toList
    ["-cp".toList, cp,
     "-Dant.home=".toList ++ base,
     "org.apache.tools.ant.Main".toList,
     "-Dargs.input".toList, src,
     "-Doutput.dir".toList, dstDir]
  let cmdArgs := cmdArgs ++ args
  emit (Event.printArgs cmdArgs)
  match ← callRun w cmdArgs with
  | some err => return some ("ERROR: Failed to convert: ".toList ++ err)
  | none => return none

/-- The function `main`. -/
def main {U : Type} (w : World U) : Run U Unit := do
  let args ← readArgs w
  match ← callDownload w args.src args.tmp with
  | .error err => die (Fault.download err)
  | .ok start =>
  match ← convert w start args.out args.args with
  | some err => die (Fault.convert args.tmp err)
  | none =>
  match ← callUpload w args.out args.dst with
  | some err => die (Fault.upload err)
  | none => pure ()

/-! ## Stages -/

/-- The three stages of a job. -/
inductive Stage where
  | fetch
  | convert
  | publish
  deriving DecidableEq, Repr

/-- The stage a call starts: `kuhnuri.DownloadFile` starts fetch, the entry into
`convert` starts convert, `kuhnuri.UploadFile` starts publish. -/
def Event.stage? {U : Type} : Event U → Option Stage
  | .download _ _ => some Stage.fetch
  | .convert _ _ _ => some Stage.convert
  | .upload _ _ => some Stage.publish
  | _ => none

/-- The stages a trace starts, in order. -/
def stages {U : Type} (tr : List (Event U)) : List Stage := tr.filterMap Event.stage?

/-- Whether an event is a subprocess start (`cmd.Run`). -/
def Event.isRun {U : Type} : Event U → Bool
  | .run _ => true
  | _ => false

/-- The number of subprocess starts in a trace. -/
def runCount {U : Type} (tr : List (Event U)) : Nat := (tr.filter Event.isRun).length

/-! ## Predicates of the statements -/

/-- An environment variable is unset or empty: `os.Getenv` returns "". -/
def UnsetOrEmpty {U : Type} (w : World U) (key : GoString) : Prop :=
  w.environ key = none ∨ w.environ key = some []

/-- The source variable "input" or the destination variable "output" is unset
or empty, or its value does not parse as a URL. -/
def BadEnvironment {U : Type} (w : World U) : Prop :=
  UnsetOrEmpty w "input".toList ∨ UnsetOrEmpty w "output".toList ∨
    (∃ err, w.urlParse (Getenv w "input".toList) = .error err) ∨
    (∃ err, w.urlParse (Getenv w "output".toList) = .error err)

/-- The faults `readArgs` raises for the two required variables. -/
def Fault.isEnvironment : Fault → Bool
  | .inputNotSet => true
  | .outputNotSet => true
  | .parseInput _ _ => true
  | .parseOutput _ _ => true
  | _ => false

/-- Whether a path ends in ".jar". -/
def endsInJar (path : GoString) : Bool := ".jar".toList.isSuffixOf path

/-- Whether a line of env.sh begins with "CLASSPATH". -/
def isClasspathLine (line : GoString) : Bool := "CLASSPATH".toList.isPrefixOf line

/-- The fragment of a line: the line without its first 33 bytes and without
its last byte. -/
def fragment (line : GoString) : GoString := (line.drop 33).dropLast

/-- The entry sequence in the order the specification gives: `base/config`
first, then the walked paths that end in ".jar" in walk order (regular files
and directories alike, the root included), then one entry for each line
beginning with "CLASSPATH" in line order. -/
def specEntries (base : GoString) (walked lines : List GoString) : List GoString :=
  [Join base "config".toList] ++ walked.filter endsInJar ++
    (lines.filter isClasspathLine).map (fun line => Join base (fragment line))

/-- The prefix of a line of the shipped env.sh, 33 bytes long. -/
def shippedPrefix : GoString := "CLASSPATH=\"$CLASSPATH:$DITA_HOME/".toList

/-- A line of the shape the shipped env.sh has:
`CLASSPATH="$CLASSPATH:$DITA_HOME/<fragment>"`. -/
def shippedLine (frag : GoString) : GoString := shippedPrefix ++ frag ++ ['"']

/-- Every line of the file that begins with "CLASSPATH" is at least 34 bytes
long: the slice expression `line[33:len(line)-1]` is within bounds. -/
def LongClasspathLines (lines : List GoString) : Prop :=
  ∀ line ∈ lines, isClasspathLine line = true → 34 ≤ line.length

/-- The nine fixed arguments of the command `convert` builds, for a classpath
`cp`: the program name and the eight arguments given to `exec.Command`. -/
def fixedArgs (cp src dstDir : GoString) : List GoString :=
  ["java".toList, "-cp".toList, cp, "-Dant.home=".toList ++ "/opt/app".toList,
   "org.apache.tools.ant.Main".toList, "-Dargs.input".toList, src,
   "-Doutput.dir".toList, dstDir]

/-! ## Concrete worlds -/

/-- A job on an installation under /opt/app whose env.sh has the shipped shape:
the source is file:///in/doc.xml, the destination file:///out/, every call
succeeds. A URL is kept as its text. -/
def exampleWorld : World GoString where
  environ key :=
    if key = "input".toList then some "file:///in/doc.xml".toList
    else if key = "output".toList then some "file:///out/".toList
    else none
  osArgs := ["/opt/app/main".toList, "-Dtranstype=html5".toList]
  urlParse s := .ok s
  tempDir _ pattern := .ok ("/tmp/".toList ++ pattern ++ "123".toList)
  walk _ :=
    ["/opt/app".toList, "/opt/app/config".toList, "/opt/app/config/env.sh".toList,
     "/opt/app/lib".toList, "/opt/app/lib/dost.jar".toList, "/opt/app/lib/readme.txt".toList]
  isDir path :=
    path = "/opt/app".toList || path = "/opt/app/config".toList || path = "/opt/app/lib".toList
  openFile path :=
    if path = "/opt/app/config/env.sh".toList then
      .ok ⟨["#!/bin/sh".toList, shippedLine "lib/foo.jar".toList, "export CLASSPATH".toList], none⟩
    else .error "no such file or directory".toList
  run _ := none
  download _ tmp := .ok (tmp ++ "/doc.xml".toList)
  upload _ _ := none

/-- The example, with the given lines in env.sh. -/
def worldWithEnv (lines : List GoString) : World GoString :=
  { exampleWorld with openFile := fun _ => .ok ⟨lines, none⟩ }

/-- The example, with an installation that has no archive and an empty env.sh. -/
def bareWorld : World GoString :=
  { exampleWorld with walk := fun _ => ["/opt/app".toList], openFile := fun _ => .ok ⟨[], none⟩ }

/-- The example, with an installation that holds a directory d.jar with one
regular file g.jar in it, and an empty env.sh. -/
def worldDirJar : World GoString :=
  { exampleWorld with
    walk := fun _ =>
      ["/opt/app".toList, "/opt/app/d.jar".toList, "/opt/app/d.jar/g.jar".toList]
    isDir := fun path => path = "/opt/app".toList || path = "/opt/app/d.jar".toList
    openFile := fun _ => .ok ⟨[], none⟩ }

/-- The example, without config/env.sh. -/
def worldNoEnv : World GoString :=
  { exampleWorld with openFile := fun _ => .error "no such file or directory".toList }

/-- The example, with the destination variable unset. -/
def worldNoOutput : World GoString :=
  { exampleWorld with
    environ := fun key => if key = "input".toList then some "file:///in/doc.xml".toList else none }

/-- The example, with a subprocess that exits with status 1. -/
def worldExit1 : World GoString :=
  { exampleWorld with run := fun _ => some "exit status 1".toList }

variable {U : Type}

theorem Run.bind_eq {α β : Type} (x : Run U α) (f : α → Run U β) : (x >>= f) = Run.bind x f := rfl

theorem Run.pure_eq {α : Type} (a : α) : (pure a : Run U α) = ⟨.ok a, []⟩ := rfl

/-- The function `readArgs`, case by case. -/
theorem readArgs_eq (w : World U) :
    readArgs w =
      if Getenv w "input".toList = [] then ⟨.error Fault.inputNotSet, []⟩
      else if Getenv w "output".toList = [] then ⟨.error Fault.outputNotSet, []⟩
      else match w.urlParse (Getenv w "input".toList) with
        | .error err => ⟨.error (Fault.parseInput (Getenv w "input".toList) err), []⟩
        | .ok src =>
          match w.urlParse (Getenv w "output".toList) with
          | .error err => ⟨.error (Fault.parseOutput (Getenv w "output".toList) err), []⟩
          | .ok dst =>
            match w.tempDir [] "tmp".toList with
            | .error err => ⟨.error (Fault.tempDir err), [Event.tempDir [] "tmp".toList]⟩
            | .ok tmp =>
              match w.tempDir [] "out".toList with
              | .error err =>
                ⟨.error (Fault.tempDir err),
                  [Event.tempDir [] "tmp".toList, Event.tempDir [] "out".toList]⟩
              | .ok out =>
                match w.osArgs with
                | [] =>
                  ⟨.error (Fault.sliceBounds 1 0),
                    [Event.tempDir [] "tmp".toList, Event.tempDir [] "out".toList]⟩
                | _ :: rest =>
                  ⟨.ok ⟨src, dst, tmp, out, rest⟩,
                    [Event.tempDir [] "tmp".toList, Event.tempDir [] "out".toList]⟩ := by
  unfold readArgs
  generalize Getenv w "input".toList = input
  generalize Getenv w "output".toList = output
  generalize "tmp".toList = ptmp
  generalize "out".toList = pout
  by_cases h1 : input = []
  · simp [h1, Run.bind_eq, Run.bind, die]
  by_cases h2 : output = []
  · simp [h1, h2, Run.bind_eq, Run.bind, die, Run.pure_eq]
  cases h5 : w.urlParse input with
  | error e => simp [h1, h2, h5, Run.bind_eq, Run.bind, die, Run.pure_eq]
  | ok src =>
    cases h6 : w.urlParse output with
    | error e => simp [h1, h2, h5, h6, Run.bind_eq, Run.bind, die, Run.pure_eq]
    | ok dst =>
      cases h3 : w.tempDir [] ptmp with
      | error e => simp [h1, h2, h3, h5, h6, Run.bind_eq, Run.bind, die, Run.pure_eq, callTempDir]
      | ok tmp =>
        cases h4 : w.tempDir [] pout with
        | error e => simp [h1, h2, h3, h4, h5, h6, Run.bind_eq, Run.bind, die, Run.pure_eq, callTempDir]
        | ok out =>
          cases h7 : w.osArgs <;> simp [h1, h2, h3, h4, h5, h6, h7, Run.bind_eq, Run.bind, die, Run.pure_eq, callTempDir]

/-- The function `main`, case by case on what the stages return. -/
theorem main_eq (w : World U) :
    main w =
      match (readArgs w).result with
      | .error f => ⟨.error f, (readArgs w).trace⟩
      | .ok a =>
        match w.download a.src a.tmp with
        | .error err =>
          ⟨.error (Fault.download err), (readArgs w).trace ++ [Event.download a.src a.tmp]⟩
        | .ok start =>
          match (convert w start a.out a.args).result with
          | .error f =>
            ⟨.error f, (readArgs w).trace ++
              (Event.download a.src a.tmp :: (convert w start a.out a.args).trace)⟩
          | .ok (some err) =>
            ⟨.error (Fault.convert a.tmp err), (readArgs w).trace ++
              (Event.download a.src a.tmp :: (convert w start a.out a.args).trace)⟩
          | .ok none =>
            match w.upload a.out a.dst with
            | some err =>
              ⟨.error (Fault.upload err), (readArgs w).trace ++
                (Event.download a.src a.tmp :: ((convert w start a.out a.args).trace ++
                  [Event.upload a.out a.dst]))⟩
            | none =>
              ⟨.ok (), (readArgs w).trace ++
                (Event.download a.src a.tmp :: ((convert w start a.out a.args).trace ++
                  [Event.upload a.out a.dst]))⟩ := by
  unfold main
  cases h1 : (readArgs w).result with
  | error f => simp [h1, Run.bind_eq, Run.bind]
  | ok a =>
    cases h2 : w.download a.src a.tmp with
    | error err => simp [h1, h2, Run.bind_eq, Run.bind, callDownload, die]
    | ok start =>
      cases h3 : (convert w start a.out a.args).result with
      | error f => simp [h1, h2, h3, Run.bind_eq, Run.bind, callDownload, die]
      | ok r =>
        cases r with
        | some err => simp [h1, h2, h3, Run.bind_eq, Run.bind, callDownload, die]
        | none =>
          cases h4 : w.upload a.out a.dst <;>
            simp [h1, h2, h3, h4, Run.bind_eq, Run.bind, callDownload, callUpload, die, Run.pure_eq]

/-- The function `convert`, case by case on the classpath. -/
theorem convert_eq (w : World U) (src dstDir : GoString) (args : List GoString) :
    convert w src dstDir args =
      match getClasspath w "/opt/app".toList with
      | .error f => ⟨.error f, [Event.convert src dstDir args]⟩
      | .ok cp =>
        ⟨.ok ((w.run (["java".toList, "-cp".toList, cp, "-Dant.home=".toList ++ "/opt/app".toList,
            "org.apache.tools.ant.Main".toList, "-Dargs.input".toList, src,
            "-Doutput.dir".toList, dstDir] ++ args)).map
            (fun err => "ERROR: Failed to convert: ".toList ++ err)),
          [Event.convert src dstDir args,
           Event.printArgs (["java".toList, "-cp".toList, cp, "-Dant.home=".toList ++ "/opt/app".toList,
            "org.apache.tools.ant.Main".toList, "-Dargs.input".toList, src,
            "-Doutput.dir".toList, dstDir] ++ args),
           Event.run (["java".toList, "-cp".toList, cp, "-Dant.home=".toList ++ "/opt/app".toList,
            "org.apache.tools.ant.Main".toList, "-Dargs.input".toList, src,
            "-Doutput.dir".toList, dstDir] ++ args)]⟩ := by
  unfold convert
  simp only [Run.bind_eq, Run.bind, emit, liftFault, callRun, execCommand]
  cases h : getClasspath w "/opt/app".toList with
  | error f => simp
  | ok cp =>
    simp
    cases w.run _ <;> simp [Run.pure_eq]

theorem stages_nil : stages ([] : List (Event U)) = [] := rfl

theorem stages_append (t₁ t₂ : List (Event U)) : stages (t₁ ++ t₂) = stages t₁ ++ stages t₂ := by
  simp [stages, List.filterMap_append]

theorem stages_cons (e : Event U) (t : List (Event U)) :
    stages (e :: t) = (match e.stage? with | some s => [s] | none => []) ++ stages t := by
  cases h : e.stage? <;> simp [stages, List.filterMap_cons, h]

/-- The function `readArgs` starts no stage: it calls `ioutil.TempDir` only. -/
theorem readArgs_stages (w : World U) : stages (readArgs w).trace = [] := by
  rw [readArgs_eq]
  repeat' split
  all_goals simp [stages, Event.stage?]

/-- The function `convert` starts the convert stage and no other. -/
theorem convert_stages (w : World U) (src dstDir : GoString) (args : List GoString) :
    stages (convert w src dstDir args).trace = [Stage.convert] := by
  rw [convert_eq]
  split <;> simp [stages, Event.stage?]

/-- The function `main`: its result and the stages it starts, case by case. -/
theorem main_stages_eq (w : World U) :
    ((main w).result, stages (main w).trace) =
      match (readArgs w).result with
      | .error f => (.error f, [])
      | .ok a =>
        match w.download a.src a.tmp with
        | .error err => (.error (Fault.download err), [Stage.fetch])
        | .ok start =>
          match (convert w start a.out a.args).result with
          | .error f => (.error f, [Stage.fetch, Stage.convert])
          | .ok (some err) => (.error (Fault.convert a.tmp err), [Stage.fetch, Stage.convert])
          | .ok none =>
            match w.upload a.out a.dst with
            | some err => (.error (Fault.upload err), [Stage.fetch, Stage.convert, Stage.publish])
            | none => (.ok (), [Stage.fetch, Stage.convert, Stage.publish]) := by
  rw [main_eq]
  repeat' split
  all_goals
    simp [stages_append, stages_cons, stages_nil, readArgs_stages, convert_stages, Event.stage?]

/-- When `convert` returns nil, it ran the subprocess and `cmd.Run` returned nil. -/
theorem convert_nil_run (w : World U) (src dstDir : GoString) (args : List GoString)
    (h : (convert w src dstDir args).result = .ok none) :
    ∃ cmdArgs, Event.run cmdArgs ∈ (convert w src dstDir args).trace ∧ w.run cmdArgs = none := by
  rw [convert_eq] at h ⊢
  generalize getClasspath w "/opt/app".toList = gc at h ⊢
  cases gc with
  | error f => simp at h
  | ok cp =>
    refine ⟨_, List.mem_cons_of_mem _ (List.mem_cons_of_mem _ (List.mem_singleton.2 rfl)), ?_⟩
    simpa using h

/-- Once fetch has returned a path, the calls of `convert` are calls of `main`. -/
theorem convert_trace_subset_main (w : World U) (a : Args U) (start : GoString)
    (h1 : (readArgs w).result = .ok a) (h2 : w.download a.src a.tmp = .ok start) :
    ∀ e ∈ (convert w start a.out a.args).trace, e ∈ (main w).trace := by
  intro e he
  rw [main_eq]
  simp only [h1, h2]
  repeat' split
  all_goals simp [he]

theorem getenv_eq_nil_iff (w : World U) (key : GoString) :
    Getenv w key = [] ↔ UnsetOrEmpty w key := by
  unfold Getenv UnsetOrEmpty
  cases w.environ key <;> simp

/-! ### The library functions -/

theorem extLoop_eq_cons (r acc : List Char) (c : Char) (s : List Char)
    (h : extLoop r acc = c :: s) :
    ∃ pre rest, r = pre ++ '.' :: rest ∧ c = '.' ∧ s = pre.reverse ++ acc := by
  induction r generalizing acc with
  | nil => simp [extLoop] at h
  | cons x r ih =>
    unfold extLoop at h
    split at h
    · cases h
    · split at h
      · rename_i hx
        injection h with h1 h2
        exact ⟨[], r, by simp [hx], by rw [← h1, hx], by simp [h2]⟩
      · obtain ⟨pre, rest, h1, h2, h3⟩ := ih _ h
        exact ⟨x :: pre, rest, by simp [h1], h2, by simp [h3]⟩

/-- The test `filepath.Ext(path) == ".jar"` says that the path ends in ".jar". -/
theorem Ext_eq_jar_iff (path : GoString) : Ext path = ".jar".toList ↔ endsInJar path = true := by
  unfold endsInJar
  rw [List.isSuffixOf_iff_suffix]
  constructor
  · intro h
    obtain ⟨pre, rest, h1, -, h3⟩ := extLoop_eq_cons _ _ _ _ h
    have h4 : pre = ['r', 'a', 'j'] := by
      have := congrArg List.reverse h3
      simpa using this.symm
    refine ⟨rest.reverse, ?_⟩
    have h5 := congrArg List.reverse h1
    rw [List.reverse_reverse] at h5
    rw [h5, h4]
    simp
  · rintro ⟨t, rfl⟩
    simp [Ext, extLoop, IsPathSeparator, Separator]

theorem walkJars_eq (paths jars : List GoString) :
    walkJars paths jars = jars ++ paths.filter endsInJar := by
  unfold walkJars
  induction paths generalizing jars with
  | nil => simp
  | cons p ps ih =>
    rw [List.foldl_cons, ih, List.filter_cons]
    by_cases h : endsInJar p = true
    · rw [if_pos ((Ext_eq_jar_iff p).2 h), if_pos h]; simp
    · rw [if_neg (fun h' => h ((Ext_eq_jar_iff p).1 h')), if_neg h]

theorem goSlice_fragment (line : GoString) (h : 34 ≤ line.length) :
    goSlice line 33 ((line.length : Int) - 1) = some (fragment line) := by
  unfold goSlice fragment
  have h1 : ((line.length : Int) - 1).toNat = line.length - 1 := by omega
  have h2 : (33 : Int).toNat = 33 := rfl
  rw [if_pos (by omega), h1, h2, List.drop_take, List.dropLast_eq_take, List.length_drop,
    Nat.sub_right_comm]

theorem goSlice_short (line : GoString) (h : line.length < 34) :
    goSlice line 33 ((line.length : Int) - 1) = none := by
  unfold goSlice
  rw [if_neg (by omega)]

/-! ### The scan of env.sh -/

theorem scanLine_long (base : GoString) (jars : List GoString) (line : GoString)
    (hp : isClasspathLine line = true) (h : 34 ≤ line.length) :
    scanLine base jars line = .ok (jars ++ [Join base (fragment line)]) := by
  unfold scanLine
  rw [show HasPrefix line "CLASSPATH".toList = true from hp, if_pos rfl, goSlice_fragment line h]

theorem scanLine_short (base : GoString) (jars : List GoString) (line : GoString)
    (hp : isClasspathLine line = true) (h : line.length < 34) :
    scanLine base jars line = .error (Fault.sliceBounds 33 ((line.length : Int) - 1)) := by
  unfold scanLine
  rw [show HasPrefix line "CLASSPATH".toList = true from hp, if_pos rfl, goSlice_short line h]

theorem scanLine_other (base : GoString) (jars : List GoString) (line : GoString)
    (hp : isClasspathLine line = false) :
    scanLine base jars line = .ok jars := by
  unfold scanLine
  rw [show HasPrefix line "CLASSPATH".toList = false from hp]
  rfl

theorem scanLines_long (base : GoString) (lines jars : List GoString)
    (h : LongClasspathLines lines) :
    scanLines base lines jars =
      .ok (jars ++ (lines.filter isClasspathLine).map (fun line => Join base (fragment line))) := by
  induction lines generalizing jars with
  | nil => simp [scanLines]
  | cons line rest ih =>
    have hrest : LongClasspathLines rest := fun l hl => h l (List.mem_cons_of_mem _ hl)
    unfold scanLines
    cases hp : isClasspathLine line with
    | true =>
      rw [scanLine_long base jars line hp (h line (List.mem_cons_self _ _) hp)]
      simp only [ih _ hrest, List.filter_cons, hp, if_true, List.map_cons, List.append_assoc,
        List.singleton_append]
    | false =>
      rw [scanLine_other base jars line hp]
      simp only [ih _ hrest, List.filter_cons, hp]
      simp

/-- A line beginning with "CLASSPATH" and shorter than 34 bytes ends the scan
with the panic of the slice expression. -/
theorem scanLines_short (base : GoString) (lines jars : List GoString)
    (h : ¬ LongClasspathLines lines) :
    ∃ hi, scanLines base lines jars = .error (Fault.sliceBounds 33 hi) := by
  induction lines generalizing jars with
  | nil => exact absurd (fun l hl => by cases hl) h
  | cons line rest ih =>
    unfold scanLines
    cases hp : isClasspathLine line with
    | true =>
      by_cases hl : 34 ≤ line.length
      · rw [scanLine_long base jars line hp hl]
        apply ih
        intro hrest
        apply h
        intro l hmem
        rcases List.mem_cons.1 hmem with rfl | hm
        · exact fun _ => hl
        · exact hrest l hm
      · rw [scanLine_short base jars line hp (by omega)]
        exact ⟨_, rfl⟩
    | false =>
      rw [scanLine_other base jars line hp]
      apply ih
      intro hrest
      apply h
      intro l hmem
      rcases List.mem_cons.1 hmem with rfl | hm
      · intro hc; rw [hp] at hc; cases hc
      · exact hrest l hm

/-! ### `getClasspath` -/

/-- The function `getClasspath`, case by case. -/
theorem classpathEntries_eq (w : World U) (base : GoString) :
    classpathEntries w base =
      match w.openFile (Join base "config/env.sh".toList) with
      | .error err => .error (Fault.openEnv err)
      | .ok env =>
        match scanLines base env.lines
            ([Join base "config".toList] ++ (w.walk base).filter endsInJar) with
        | .error f => .error f
        | .ok jars =>
          match env.scanErr with
          | some err => .error (Fault.scanEnv err)
          | none => .ok jars := by
  unfold classpathEntries
  simp only [walkJars_eq, List.nil_append]

theorem classpathEntries_long (w : World U) (base : GoString) (env : EnvFile)
    (hopen : w.openFile (Join base "config/env.sh".toList) = .ok env)
    (hscan : env.scanErr = none) (hlong : LongClasspathLines env.lines) :
    classpathEntries w base = .ok (specEntries base (w.walk base) env.lines) := by
  rw [classpathEntries_eq, hopen]
  simp only [scanLines_long base env.lines _ hlong, hscan, specEntries]

theorem getClasspath_long (w : World U) (base : GoString) (env : EnvFile)
    (hopen : w.openFile (Join base "config/env.sh".toList) = .ok env)
    (hscan : env.scanErr = none) (hlong : LongClasspathLines env.lines) :
    getClasspath w base =
      .ok (stringsJoin (specEntries base (w.walk base) env.lines) [PathListSeparator]) := by
  unfold getClasspath
  rw [classpathEntries_long w base env hopen hscan hlong]

/-- Whenever `classpathEntries` returns, the sequence is the one the
specification describes. -/
theorem classpathEntries_ok (w : World U) (base : GoString) (jars : List GoString)
    (h : classpathEntries w base = .ok jars) :
    ∃ env, w.openFile (Join base "config/env.sh".toList) = .ok env ∧ env.scanErr = none ∧
      LongClasspathLines env.lines ∧ jars = specEntries base (w.walk base) env.lines := by
  rw [classpathEntries_eq] at h
  cases hopen : w.openFile (Join base "config/env.sh".toList) with
  | error err => rw [hopen] at h; cases h
  | ok env =>
    rw [hopen] at h
    simp only at h
    by_cases hlong : LongClasspathLines env.lines
    · simp only [scanLines_long base env.lines _ hlong] at h
      cases hs : env.scanErr with
      | some err => rw [hs] at h; cases h
      | none =>
        rw [hs] at h
        injection h with h
        exact ⟨env, rfl, hs, hlong, by rw [← h, specEntries]⟩
    · obtain ⟨hi, hh⟩ := scanLines_short base env.lines
        ([Join base "config".toList] ++ (w.walk base).filter endsInJar) hlong
      rw [hh] at h
      cases h

/-- The function `convert`, case by case on the classpath, with the fixed arguments named. -/
theorem convert_eq_fixed (w : World U) (src dstDir : GoString) (args : List GoString) :
    convert w src dstDir args =
      match getClasspath w "/opt/app".toList with
      | .error f => ⟨.error f, [Event.convert src dstDir args]⟩
      | .ok cp =>
        ⟨.ok ((w.run (fixedArgs cp src dstDir ++ args)).map
            (fun err => "ERROR: Failed to convert: ".toList ++ err)),
          [Event.convert src dstDir args, Event.printArgs (fixedArgs cp src dstDir ++ args),
           Event.run (fixedArgs cp src dstDir ++ args)]⟩ :=
  convert_eq w src dstDir args

/-! ### Lines of the shipped shape -/

theorem shippedPrefix_length : shippedPrefix.length = 33 := by decide

theorem shippedLine_isClasspathLine (frag : GoString) :
    isClasspathLine (shippedLine frag) = true := by
  unfold isClasspathLine
  rw [List.isPrefixOf_iff_prefix]
  exact ⟨"=\"$CLASSPATH:$DITA_HOME/".toList ++ frag ++ ['"'], by
    simp [shippedLine, shippedPrefix]⟩

theorem shippedLine_length (frag : GoString) : 34 ≤ (shippedLine frag).length := by
  simp only [shippedLine, List.length_append, shippedPrefix_length, List.length_singleton]
  omega

theorem fragment_shippedLine (frag : GoString) : fragment (shippedLine frag) = frag := by
  unfold fragment shippedLine
  rw [List.append_assoc, List.drop_left' shippedPrefix_length, List.dropLast_concat]

/-! ## The claims -/

/-- C1: in `main`, whatever the three stages answer, the stages started are a
prefix of fetch, convert, publish (so they come in this order, each at most
once); convert is started only after fetch returned no error; publish is
started only after `convert` returned nil, which it does only when the
subprocess ran and exited with status 0; and when a stage returns an error the
job ends with the fault of that stage and no later stage is started. -/
theorem main_stages_in_order (w : World U) :
    (stages (main w).trace <+: [Stage.fetch, Stage.convert, Stage.publish]) ∧
    (Stage.convert ∈ stages (main w).trace →
      ∃ a start, (readArgs w).result = .ok a ∧ w.download a.src a.tmp = .ok start) ∧
    (Stage.publish ∈ stages (main w).trace →
      ∃ a start cmdArgs, (readArgs w).result = .ok a ∧ w.download a.src a.tmp = .ok start ∧
        (convert w start a.out a.args).result = .ok none ∧
        Event.run cmdArgs ∈ (main w).trace ∧ w.run cmdArgs = none) ∧
    (∀ a err, (readArgs w).result = .ok a → w.download a.src a.tmp = .error err →
      (main w).result = .error (Fault.download err) ∧
        stages (main w).trace = [Stage.fetch]) ∧
    (∀ a start err, (readArgs w).result = .ok a → w.download a.src a.tmp = .ok start →
      (convert w start a.out a.args).result = .ok (some err) →
      (main w).result = .error (Fault.convert a.tmp err) ∧
        stages (main w).trace = [Stage.fetch, Stage.convert]) ∧
    (∀ a start err, (readArgs w).result = .ok a → w.download a.src a.tmp = .ok start →
      (convert w start a.out a.args).result = .ok none → w.upload a.out a.dst = some err →
      (main w).result = .error (Fault.upload err) ∧
        stages (main w).trace = [Stage.fetch, Stage.convert, Stage.publish]) ∧
    (∀ a start, (readArgs w).result = .ok a → w.download a.src a.tmp = .ok start →
      (convert w start a.out a.args).result = .ok none → w.upload a.out a.dst = none →
      (main w).result = .ok () ∧
        stages (main w).trace = [Stage.fetch, Stage.convert, Stage.publish]) := by
  have h := main_stages_eq w
  refine ⟨?_, ?_, ?_, ?_, ?_, ?_, ?_⟩
  · have hs := congrArg Prod.snd h
    simp only at hs
    rw [hs]
    repeat' split
    all_goals simp
  · intro hc
    cases h1 : (readArgs w).result with
    | error f => simp [h1] at h; simp [h.2] at hc
    | ok a =>
      cases h2 : w.download a.src a.tmp with
      | error err => simp [h1, h2] at h; simp [h.2] at hc
      | ok start => exact ⟨a, start, rfl, h2⟩
  · intro hc
    cases h1 : (readArgs w).result with
    | error f => simp [h1] at h; simp [h.2] at hc
    | ok a =>
      cases h2 : w.download a.src a.tmp with
      | error err => simp [h1, h2] at h; simp [h.2] at hc
      | ok start =>
        cases h3 : (convert w start a.out a.args).result with
        | error f => simp [h1, h2, h3] at h; simp [h.2] at hc
        | ok r =>
          cases r with
          | some err => simp [h1, h2, h3] at h; simp [h.2] at hc
          | none =>
            obtain ⟨cmdArgs, hrun, hnil⟩ := convert_nil_run w start a.out a.args h3
            exact ⟨a, start, cmdArgs, rfl, h2, h3,
              convert_trace_subset_main w a start h1 h2 _ hrun, hnil⟩
  · intro a err h1 h2
    simpa [h1, h2] using h
  · intro a start err h1 h2 h3
    simpa [h1, h2, h3] using h
  · intro a start err h1 h2 h3 h4
    simpa [h1, h2, h3, h4] using h
  · intro a start h1 h2 h3 h4
    simpa [h1, h2, h3, h4] using h

/-- C1, at the example job, where all three stages run in order and the job
ends normally, and at the job whose subprocess exits with status 1, where the
job ends with the fault of convert and publish is not started. -/
theorem main_stages_in_order_witness :
    ((main exampleWorld).result = .ok () ∧
      stages (main exampleWorld).trace = [Stage.fetch, Stage.convert, Stage.publish]) ∧
    ((main worldExit1).result =
        .error (Fault.convert "/tmp/tmp123".toList
          "ERROR: Failed to convert: exit status 1".toList) ∧
      stages (main worldExit1).trace = [Stage.fetch, Stage.convert]) :=
  ⟨(main_stages_in_order exampleWorld).2.2.2.2.2.2 _ _ rfl rfl rfl rfl,
    (main_stages_in_order worldExit1).2.2.2.2.1 _ _ _ rfl rfl rfl⟩

/-- C2: when "input" or "output" is unset or empty or does not parse as a URL,
`readArgs` ends the process with the fault of that variable before it has made
any call (no temporary directory is created) and so does `main` (no fetch, no
convert, no subprocess, no publish); conversely any call `main` makes comes
after both values were parsed into URLs. -/
theorem bad_environment_no_calls (w : World U) :
    (BadEnvironment w →
      ∃ f, f.isEnvironment = true ∧
        readArgs w = ⟨.error f, []⟩ ∧ main w = ⟨.error f, []⟩) ∧
    (∀ e ∈ (main w).trace,
      ∃ src dst, Getenv w "input".toList ≠ [] ∧ Getenv w "output".toList ≠ [] ∧
        w.urlParse (Getenv w "input".toList) = .ok src ∧
        w.urlParse (Getenv w "output".toList) = .ok dst) := by
  have key : ∀ f, readArgs w = ⟨.error f, []⟩ → main w = ⟨.error f, []⟩ := by
    intro f hf
    rw [main_eq, hf]
  have hr := readArgs_eq w
  by_cases h1 : Getenv w "input".toList = []
  · rw [if_pos h1] at hr
    refine ⟨fun _ => ⟨_, ?_, hr, key _ hr⟩, ?_⟩
    · rfl
    rw [key _ hr]
    simp
  rw [if_neg h1] at hr
  by_cases h2 : Getenv w "output".toList = []
  · rw [if_pos h2] at hr
    refine ⟨fun _ => ⟨_, ?_, hr, key _ hr⟩, ?_⟩
    · rfl
    rw [key _ hr]
    simp
  rw [if_neg h2] at hr
  cases h3 : w.urlParse (Getenv w "input".toList) with
  | error err =>
    rw [h3] at hr
    refine ⟨fun _ => ⟨_, ?_, hr, key _ hr⟩, ?_⟩
    · rfl
    rw [key _ hr]
    simp
  | ok src =>
    cases h4 : w.urlParse (Getenv w "output".toList) with
    | error err =>
      rw [h3, h4] at hr
      refine ⟨fun _ => ⟨_, ?_, hr, key _ hr⟩, ?_⟩
      · rfl
      rw [key _ hr]
      simp
    | ok dst =>
      refine ⟨?_, fun _ _ => ⟨src, dst, h1, h2, rfl, rfl⟩⟩
      intro hbad
      rcases hbad with hb | hb | ⟨e, hb⟩ | ⟨e, hb⟩
      · exact absurd ((getenv_eq_nil_iff w _).2 hb) h1
      · exact absurd ((getenv_eq_nil_iff w _).2 hb) h2
      · rw [h3] at hb; cases hb
      · rw [h4] at hb; cases hb

/-- C2, at the job whose destination variable is unset: the process ends with
the fault of that variable and has made no call. -/
theorem bad_environment_no_calls_witness :
    BadEnvironment worldNoOutput ∧
      ∃ f, f.isEnvironment = true ∧
        readArgs worldNoOutput = ⟨.error f, []⟩ ∧ main worldNoOutput = ⟨.error f, []⟩ :=
  ⟨Or.inr (Or.inl (Or.inl rfl)),
    (bad_environment_no_calls worldNoOutput).1 (Or.inr (Or.inl (Or.inl rfl)))⟩

/-- C3, refuted as stated, at two installations. At the first, env.sh opens
and scans without error, its one line begins with "CLASSPATH" and is 19 bytes
long, and `getClasspath` does not return: the slice expression panics. At the
second, the walk visits the directory /opt/app/d.jar, and `getClasspath`
returns a classpath that has this directory as an entry, beside the regular
file /opt/app/d.jar/g.jar: an entry that is no file found by the walk. -/
theorem getClasspath_entries_refuted :
    ((worldWithEnv ["CLASSPATH=lib/x.jar".toList]).openFile
        (Join "/opt/app".toList "config/env.sh".toList) =
      .ok ⟨["CLASSPATH=lib/x.jar".toList], none⟩ ∧
    getClasspath (worldWithEnv ["CLASSPATH=lib/x.jar".toList]) "/opt/app".toList =
      .error (Fault.sliceBounds 33 18) ∧
    ¬ ∃ s, getClasspath (worldWithEnv ["CLASSPATH=lib/x.jar".toList]) "/opt/app".toList =
      .ok s) ∧
    (worldDirJar.walk "/opt/app".toList =
      ["/opt/app".toList, "/opt/app/d.jar".toList, "/opt/app/d.jar/g.jar".toList] ∧
    worldDirJar.isDir "/opt/app/d.jar".toList = true ∧
    classpathEntries worldDirJar "/opt/app".toList =
      .ok ["/opt/app/config".toList, "/opt/app/d.jar".toList, "/opt/app/d.jar/g.jar".toList] ∧
    getClasspath worldDirJar "/opt/app".toList =
      .ok "/opt/app/config:/opt/app/d.jar:/opt/app/d.jar/g.jar".toList) :=
  ⟨⟨rfl, rfl, fun ⟨_, h⟩ => by cases h⟩, rfl, rfl, rfl, rfl⟩

/-- C3, amended: for every installation root, every walk and every env.sh that
opens, scans without error and has no line beginning with "CLASSPATH" shorter
than 34 bytes, `getClasspath` returns the entries joined with the path-list
separator, and the entries are exactly: `base/config`, then every path the
walk visits that ends in ".jar", in walk order, be it a regular file or a
directory (whatever `isDir` answers for it), then one entry for each line
beginning with "CLASSPATH" in line order. -/
theorem getClasspath_entries (w : World U) (base : GoString) (env : EnvFile)
    (hopen : w.openFile (Join base "config/env.sh".toList) = .ok env)
    (hscan : env.scanErr = none) (hlong : LongClasspathLines env.lines) :
    classpathEntries w base = .ok (specEntries base (w.walk base) env.lines) ∧
    getClasspath w base =
      .ok (stringsJoin (specEntries base (w.walk base) env.lines) [PathListSeparator]) ∧
    specEntries base (w.walk base) env.lines =
      [Join base "config".toList] ++
        (w.walk base).filter (fun path => ".jar".toList.isSuffixOf path) ++
        (env.lines.filter (fun line => HasPrefix line "CLASSPATH".toList)).map
          (fun line => Join base ((line.drop 33).dropLast)) :=
  ⟨classpathEntries_long w base env hopen hscan hlong,
    getClasspath_long w base env hopen hscan hlong, rfl⟩

/-- C3, amended, at the example installation, and at the installation with a
directory d.jar, which is an entry like the regular file in it. -/
theorem getClasspath_entries_witness :
    getClasspath exampleWorld "/opt/app".toList =
      .ok "/opt/app/config:/opt/app/lib/dost.jar:/opt/app/lib/foo.jar".toList ∧
    getClasspath worldDirJar "/opt/app".toList =
      .ok "/opt/app/config:/opt/app/d.jar:/opt/app/d.jar/g.jar".toList :=
  ⟨(getClasspath_entries exampleWorld "/opt/app".toList
    ⟨["#!/bin/sh".toList, shippedLine "lib/foo.jar".toList, "export CLASSPATH".toList], none⟩
    rfl rfl (by unfold LongClasspathLines; decide)).2.1,
   (getClasspath_entries worldDirJar "/opt/app".toList ⟨[], none⟩
    rfl rfl (by unfold LongClasspathLines; decide)).2.1⟩

/-- C4: the command `convert` runs is, for the classpath `cp` that
`getClasspath("/opt/app")` returned, the nine fixed arguments java, -cp, `cp`,
-Dant.home=/opt/app, org.apache.tools.ant.Main, -Dargs.input, `src`,
-Doutput.dir, `dstDir`, followed by `args` as they are; the first nine do not
depend on `args`; and when `getClasspath` does not return no command is run. -/
theorem convert_command_line (w : World U) (src dstDir : GoString) (args : List GoString) :
    (∀ cp, getClasspath w "/opt/app".toList = .ok cp →
      (convert w src dstDir args).trace =
        [Event.convert src dstDir args,
         Event.printArgs (["java".toList, "-cp".toList, cp, "-Dant.home=/opt/app".toList,
           "org.apache.tools.ant.Main".toList, "-Dargs.input".toList, src,
           "-Doutput.dir".toList, dstDir] ++ args),
         Event.run (["java".toList, "-cp".toList, cp, "-Dant.home=/opt/app".toList,
           "org.apache.tools.ant.Main".toList, "-Dargs.input".toList, src,
           "-Doutput.dir".toList, dstDir] ++ args)]) ∧
    (∀ cmdArgs, Event.run cmdArgs ∈ (convert w src dstDir args).trace →
      cmdArgs.drop 9 = args ∧
      ∀ args' cmdArgs', Event.run cmdArgs' ∈ (convert w src dstDir args').trace →
        cmdArgs'.take 9 = cmdArgs.take 9) ∧
    (∀ f, getClasspath w "/opt/app".toList = .error f →
      (convert w src dstDir args).trace = [Event.convert src dstDir args]) := by
  refine ⟨?_, ?_, ?_⟩
  · intro cp hcp
    rw [convert_eq_fixed, hcp]
    rfl
  · intro cmdArgs hmem
    rw [convert_eq_fixed] at hmem
    cases hcp : getClasspath w "/opt/app".toList with
    | error f => rw [hcp] at hmem; simp at hmem
    | ok cp =>
      rw [hcp] at hmem
      have hmem : cmdArgs = fixedArgs cp src dstDir ++ args := by simpa using hmem
      subst hmem
      refine ⟨by simp [fixedArgs], ?_⟩
      intro args' cmdArgs' hmem'
      rw [convert_eq_fixed, hcp] at hmem'
      have hmem' : cmdArgs' = fixedArgs cp src dstDir ++ args' := by simpa using hmem'
      subst hmem'
      simp [fixedArgs]
  · intro f hf
    rw [convert_eq_fixed, hf]

/-- C4, at the example job. -/
theorem convert_command_line_witness :
    (convert exampleWorld "/tmp/tmp123/doc.xml".toList "/tmp/out123".toList
        ["-Dtranstype=html5".toList, "-v".toList]).trace.getLast? =
      some (Event.run ["java".toList, "-cp".toList,
        "/opt/app/config:/opt/app/lib/dost.jar:/opt/app/lib/foo.jar".toList,
        "-Dant.home=/opt/app".toList, "org.apache.tools.ant.Main".toList,
        "-Dargs.input".toList, "/tmp/tmp123/doc.xml".toList,
        "-Doutput.dir".toList, "/tmp/out123".toList,
        "-Dtranstype=html5".toList, "-v".toList]) :=
  congrArg List.getLast? ((convert_command_line exampleWorld "/tmp/tmp123/doc.xml".toList
    "/tmp/out123".toList ["-Dtranstype=html5".toList, "-v".toList]).1 _ rfl)

/-- C5: `convert` returns a non-nil error exactly when `cmd.Run` returned an
error (the subprocess could not be started or exited with a non-zero status),
and the message of that one error is "ERROR: Failed to convert: " followed by
the cause; it returns nil exactly when `cmd.Run` returned nil; and whenever
`convert` returns, the subprocess was run exactly once (never more than once in
any case). -/
theorem convert_error_iff_run_fails (w : World U) (src dstDir : GoString)
    (args : List GoString) :
    (∀ e, (convert w src dstDir args).result = .ok (some e) ↔
      ∃ cmdArgs cause, Event.run cmdArgs ∈ (convert w src dstDir args).trace ∧
        w.run cmdArgs = some cause ∧ e = "ERROR: Failed to convert: ".toList ++ cause) ∧
    ((convert w src dstDir args).result = .ok none ↔
      ∃ cmdArgs, Event.run cmdArgs ∈ (convert w src dstDir args).trace ∧
        w.run cmdArgs = none) ∧
    (∀ r, (convert w src dstDir args).result = .ok r →
      runCount (convert w src dstDir args).trace = 1) ∧
    runCount (convert w src dstDir args).trace ≤ 1 := by
  rw [convert_eq_fixed]
  cases hcp : getClasspath w "/opt/app".toList with
  | error f => simp [runCount, Event.isRun]
  | ok cp =>
    dsimp only
    generalize fixedArgs cp src dstDir ++ args = cl
    generalize "ERROR: Failed to convert: ".toList = msg
    have hmem : ∀ c, (Event.run c : Event U) ∈ [Event.convert src dstDir args,
        Event.printArgs cl, Event.run cl] ↔ c = cl := by
      intro c; simp
    have hcount : runCount ([Event.convert src dstDir args, Event.printArgs cl,
        Event.run cl] : List (Event U)) = 1 := by
      simp [runCount, Event.isRun]
    rw [hcount]
    refine ⟨fun e => ⟨fun h => ?_, ?_⟩, ⟨fun h => ?_, ?_⟩, fun _ _ => rfl, le_refl 1⟩
    · cases hr : w.run cl with
      | none => rw [hr] at h; cases h
      | some cause =>
        rw [hr] at h
        injection h with h
        injection h with h
        exact ⟨cl, cause, (hmem cl).2 rfl, hr, h.symm⟩
    · rintro ⟨c, cause, hc, hrun, rfl⟩
      rw [(hmem c).1 hc] at hrun
      rw [hrun]
      rfl
    · cases hr : w.run cl with
      | none => exact ⟨cl, (hmem cl).2 rfl, hr⟩
      | some cause => rw [hr] at h; cases h
    · rintro ⟨c, hc, hrun⟩
      rw [(hmem c).1 hc] at hrun
      rw [hrun]
      rfl

/-- C5, at the job whose subprocess exits with status 1. -/
theorem convert_error_iff_run_fails_witness :
    (convert worldExit1 "/tmp/tmp123/doc.xml".toList "/tmp/out123".toList []).result =
        .ok (some "ERROR: Failed to convert: exit status 1".toList) ∧
    runCount (convert worldExit1 "/tmp/tmp123/doc.xml".toList "/tmp/out123".toList []).trace = 1 :=
  ⟨rfl, (convert_error_iff_run_fails worldExit1 "/tmp/tmp123/doc.xml".toList
    "/tmp/out123".toList []).2.2.1 _ rfl⟩

/-- C6: whenever `getClasspath` returns, the sequence it joined is not empty
and its first element is `filepath.Join(base, "config")`. -/
theorem classpath_first_is_config (w : World U) (base s : GoString)
    (h : getClasspath w base = .ok s) :
    ∃ jars, classpathEntries w base = .ok jars ∧ s = stringsJoin jars [PathListSeparator] ∧
      jars ≠ [] ∧ jars.head? = some (Join base "config".toList) := by
  unfold getClasspath at h
  cases hc : classpathEntries w base with
  | error f => rw [hc] at h; cases h
  | ok jars =>
    rw [hc] at h
    injection h with h
    obtain ⟨env, -, -, -, hj⟩ := classpathEntries_ok w base jars hc
    refine ⟨jars, rfl, h.symm, ?_, ?_⟩ <;> simp [hj, specEntries]

/-- C6, at an installation with no archive and an empty env.sh, and at
the example installation. -/
theorem classpath_first_is_config_witness :
    (getClasspath bareWorld "/opt/app".toList = .ok "/opt/app/config".toList ∧
      ∃ jars, classpathEntries bareWorld "/opt/app".toList = .ok jars ∧
        "/opt/app/config".toList = stringsJoin jars [PathListSeparator] ∧
        jars ≠ [] ∧ jars.head? = some (Join "/opt/app".toList "config".toList)) ∧
    ∃ jars, classpathEntries exampleWorld "/opt/app".toList = .ok jars ∧
      "/opt/app/config:/opt/app/lib/dost.jar:/opt/app/lib/foo.jar".toList =
        stringsJoin jars [PathListSeparator] ∧
      jars ≠ [] ∧ jars.head? = some (Join "/opt/app".toList "config".toList) :=
  ⟨⟨rfl, classpath_first_is_config bareWorld _ _ rfl⟩,
    classpath_first_is_config exampleWorld _ _ rfl⟩

/-- C7: if `base/config/env.sh` cannot be opened, `getClasspath(base)` ends
the process with the fault of `os.Open`; so, when /opt/app/config/env.sh
cannot be opened, `convert`, which computes the classpath while it builds the
command, ends there without having run a subprocess, and `main` ends with a
fault without a subprocess start and without a publish call. -/
theorem missing_env_no_subprocess (w : World U) :
    (∀ base err, w.openFile (Join base "config/env.sh".toList) = .error err →
      getClasspath w base = .error (Fault.openEnv err)) ∧
    (∀ err, w.openFile (Join "/opt/app".toList "config/env.sh".toList) = .error err →
      (∀ src dstDir args,
        convert w src dstDir args =
          ⟨.error (Fault.openEnv err), [Event.convert src dstDir args]⟩) ∧
      (∃ f, (main w).result = .error f) ∧
      runCount (main w).trace = 0 ∧ Stage.publish ∉ stages (main w).trace) := by
  have hcp : ∀ base err, w.openFile (Join base "config/env.sh".toList) = .error err →
      getClasspath w base = .error (Fault.openEnv err) := by
    intro base err h
    unfold getClasspath
    rw [classpathEntries_eq, h]
  refine ⟨hcp, fun err h => ?_⟩
  have hconv : ∀ src dstDir args,
      convert w src dstDir args =
        ⟨.error (Fault.openEnv err), [Event.convert src dstDir args]⟩ := by
    intro src dstDir args
    rw [convert_eq_fixed, hcp _ _ h]
  refine ⟨hconv, ?_, ?_, ?_⟩
  · rw [main_eq]
    simp only [hconv]
    repeat' split
    all_goals exact ⟨_, rfl⟩
  · have hra : runCount (readArgs w).trace = 0 := by
      rw [readArgs_eq]
      repeat' split
      all_goals rfl
    unfold runCount at hra ⊢
    rw [main_eq]
    simp only [hconv]
    repeat' split
    all_goals first
      | exact hra
      | (simp only [List.filter_append, List.length_append, hra]; rfl)
  · have hs := congrArg Prod.snd (main_stages_eq w)
    simp only [hconv] at hs
    rw [hs]
    repeat' split
    all_goals simp

/-- C7, at the example installation without env.sh. -/
theorem missing_env_no_subprocess_witness :
    getClasspath worldNoEnv "/opt/app".toList =
        .error (Fault.openEnv "no such file or directory".toList) ∧
    (main worldNoEnv).result = .error (Fault.openEnv "no such file or directory".toList) ∧
    runCount (main worldNoEnv).trace = 0 ∧ Stage.publish ∉ stages (main worldNoEnv).trace :=
  ⟨(missing_env_no_subprocess worldNoEnv).1 _ _ rfl, rfl,
    ((missing_env_no_subprocess worldNoEnv).2 _ rfl).2.2⟩

/-- C8, refuted as stated: with the line CLASSPATH="lib/foo.jar" in env.sh (23
bytes), `getClasspath` returns no classpath: the slice `line[33:22]` panics. -/
theorem spec_line_no_classpath :
    (worldWithEnv ["#!/bin/sh".toList, "CLASSPATH=\"lib/foo.jar\"".toList]).openFile
        (Join "/opt/app".toList "config/env.sh".toList) =
      .ok ⟨["#!/bin/sh".toList, "CLASSPATH=\"lib/foo.jar\"".toList], none⟩ ∧
    getClasspath (worldWithEnv ["#!/bin/sh".toList, "CLASSPATH=\"lib/foo.jar\"".toList])
        "/opt/app".toList =
      .error (Fault.sliceBounds 33 22) ∧
    ¬ ∃ s, getClasspath (worldWithEnv ["#!/bin/sh".toList, "CLASSPATH=\"lib/foo.jar\"".toList])
        "/opt/app".toList = .ok s :=
  ⟨rfl, rfl, fun ⟨_, h⟩ => by cases h⟩

/-- C8, amended: for an installation root whose config/env.sh opens, scans
without error, has no line beginning with "CLASSPATH" shorter than 34 bytes,
and contains the line CLASSPATH="$CLASSPATH:$DITA_HOME/lib/foo.jar",
`getClasspath(root)` returns a classpath whose entries include root/config,
every walked path ending in ".jar", and root/lib/foo.jar. -/
theorem shipped_line_classpath (w : World U) (root : GoString) (env : EnvFile)
    (hopen : w.openFile (Join root "config/env.sh".toList) = .ok env)
    (hscan : env.scanErr = none) (hlong : LongClasspathLines env.lines)
    (hline : "CLASSPATH=\"$CLASSPATH:$DITA_HOME/lib/foo.jar\"".toList ∈ env.lines) :
    ∃ jars, classpathEntries w root = .ok jars ∧
      getClasspath w root = .ok (stringsJoin jars [PathListSeparator]) ∧
      Join root "config".toList ∈ jars ∧
      (∀ path ∈ w.walk root, ".jar".toList <:+ path → path ∈ jars) ∧
      Join root "lib/foo.jar".toList ∈ jars := by
  refine ⟨_, classpathEntries_long w root env hopen hscan hlong,
    getClasspath_long w root env hopen hscan hlong, ?_, ?_, ?_⟩
  · simp [specEntries]
  · intro path hp hs
    have hj : endsInJar path = true := by
      unfold endsInJar
      rw [List.isSuffixOf_iff_suffix]
      exact hs
    unfold specEntries
    exact List.mem_append_left _ (List.mem_append_right _ (List.mem_filter.2 ⟨hp, hj⟩))
  · unfold specEntries
    apply List.mem_append_right
    rw [List.mem_map]
    exact ⟨_, List.mem_filter.2 ⟨hline, shippedLine_isClasspathLine "lib/foo.jar".toList⟩,
      congrArg (Join root) (fragment_shippedLine "lib/foo.jar".toList)⟩

/-- C8, amended, at the example installation. -/
theorem shipped_line_classpath_witness :
    ∃ jars, classpathEntries exampleWorld "/opt/app".toList = .ok jars ∧
      getClasspath exampleWorld "/opt/app".toList = .ok (stringsJoin jars [PathListSeparator]) ∧
      Join "/opt/app".toList "config".toList ∈ jars ∧
      (∀ path ∈ exampleWorld.walk "/opt/app".toList, ".jar".toList <:+ path → path ∈ jars) ∧
      Join "/opt/app".toList "lib/foo.jar".toList ∈ jars :=
  shipped_line_classpath exampleWorld "/opt/app".toList
    ⟨["#!/bin/sh".toList, shippedLine "lib/foo.jar".toList, "export CLASSPATH".toList], none⟩
    rfl rfl (by unfold LongClasspathLines; decide) (by decide)

/-- C9: in the scan loop of `getClasspath`, a line that begins with
"CLASSPATH" and is at least 34 bytes long appends `filepath.Join(base, f)` for
`f` the line without its first 33 bytes and its last byte; so a line of the
shipped shape, a 33-byte prefix, a fragment and a closing quote, appends
`filepath.Join(base, fragment)`; and a line that does not begin with
"CLASSPATH" appends nothing. -/
theorem scanLine_appends (base : GoString) (jars : List GoString) :
    (∀ line, HasPrefix line "CLASSPATH".toList = true → 34 ≤ line.length →
      scanLine base jars line = .ok (jars ++ [Join base ((line.drop 33).dropLast)])) ∧
    (∀ frag,
      ("CLASSPATH=\"$CLASSPATH:$DITA_HOME/".toList).length = 33 ∧
      scanLine base jars ("CLASSPATH=\"$CLASSPATH:$DITA_HOME/".toList ++ frag ++ "\"".toList) =
        .ok (jars ++ [Join base frag])) ∧
    (∀ line, HasPrefix line "CLASSPATH".toList = false → scanLine base jars line = .ok jars) := by
  refine ⟨fun line hp hl => scanLine_long base jars line hp hl, fun frag => ⟨by decide, ?_⟩,
    fun line hp => scanLine_other base jars line hp⟩
  have h := scanLine_long base jars (shippedLine frag) (shippedLine_isClasspathLine frag)
    (shippedLine_length frag)
  rw [fragment_shippedLine] at h
  exact h

/-- C9, at three lines: the line of the shipped env.sh for lib/foo.jar, a line
of another shape that is long enough, and a line that is not a declaration. -/
theorem scanLine_appends_witness :
    scanLine "/opt/app".toList ["/opt/app/config".toList]
        "CLASSPATH=\"$CLASSPATH:$DITA_HOME/lib/foo.jar\"".toList =
      .ok ["/opt/app/config".toList, "/opt/app/lib/foo.jar".toList] ∧
    scanLine "/opt/app".toList ["/opt/app/config".toList]
        "CLASSPATH=\"$DITA_HOME/lib:$DITA_HOME/lib/dost.jar:$CLASSPATH\"".toList =
      .ok ["/opt/app/config".toList, "/opt/app/OME/lib/dost.jar:$CLASSPATH".toList] ∧
    scanLine "/opt/app".toList ["/opt/app/config".toList] "export CLASSPATH".toList =
      .ok ["/opt/app/config".toList] :=
  ⟨((scanLine_appends "/opt/app".toList ["/opt/app/config".toList]).2.1 "lib/foo.jar".toList).2,
    (scanLine_appends "/opt/app".toList ["/opt/app/config".toList]).1
      "CLASSPATH=\"$DITA_HOME/lib:$DITA_HOME/lib/dost.jar:$CLASSPATH\"".toList rfl (by decide),
    (scanLine_appends "/opt/app".toList ["/opt/app/config".toList]).2.2
      "export CLASSPATH".toList rfl⟩

/-- C10, refuted as stated: the line CLASSPATH=(quote)lib/a.jar(quote), quoted
with single quotes and 21 bytes long, begins with "CLASSPATH"; the extraction
yields no fragment and appends nothing, it panics, and `getClasspath` returns
no classpath. -/
theorem short_line_panics :
    HasPrefix "CLASSPATH='lib/a.jar'".toList "CLASSPATH".toList = true ∧
    scanLine "/opt/app".toList ["/opt/app/config".toList] "CLASSPATH='lib/a.jar'".toList =
      .error (Fault.sliceBounds 33 20) ∧
    getClasspath (worldWithEnv ["CLASSPATH='lib/a.jar'".toList]) "/opt/app".toList =
      .error (Fault.sliceBounds 33 20) :=
  ⟨rfl, rfl, rfl⟩

/-- C10, amended: for an env.sh that opens and scans without error and in
which every line beginning with "CLASSPATH" is at least 34 bytes long, whatever
the shape or the quoting of these lines, the extraction raises no error: every
such line yields the fragment between its first 33 bytes and its last byte,
`filepath.Join(base, fragment)` is appended, and `getClasspath` returns a
classpath string. -/
theorem long_lines_never_fail (w : World U) (base : GoString) (env : EnvFile)
    (hopen : w.openFile (Join base "config/env.sh".toList) = .ok env)
    (hscan : env.scanErr = none)
    (hlong : ∀ line ∈ env.lines, HasPrefix line "CLASSPATH".toList = true → 34 ≤ line.length) :
    ∃ jars, classpathEntries w base = .ok jars ∧
      getClasspath w base = .ok (stringsJoin jars [PathListSeparator]) ∧
      ∀ line ∈ env.lines, HasPrefix line "CLASSPATH".toList = true →
        (∀ jars', scanLine base jars' line = .ok (jars' ++ [Join base (fragment line)])) ∧
        Join base (fragment line) ∈ jars := by
  refine ⟨_, classpathEntries_long w base env hopen hscan hlong,
    getClasspath_long w base env hopen hscan hlong, ?_⟩
  intro line hmem hp
  refine ⟨fun jars' => scanLine_long base jars' line hp (hlong line hmem hp), ?_⟩
  unfold specEntries
  apply List.mem_append_right
  rw [List.mem_map]
  exact ⟨line, List.mem_filter.2 ⟨hmem, hp⟩, rfl⟩

/-- C10, amended, at a line quoted with single quotes and followed by a second
command: the extraction yields a corrupted fragment, and `getClasspath` returns
a classpath with the corrupted entry. -/
theorem long_lines_never_fail_witness :
    getClasspath
        (worldWithEnv ["CLASSPATH='$CLASSPATH:$DITA_HOME/lib/foo.jar'; export CLASSPATH".toList])
        "/opt/app".toList =
      .ok "/opt/app/config:/opt/app/lib/dost.jar:/opt/app/lib/foo.jar'; export CLASSPAT".toList ∧
    ∃ jars,
      classpathEntries
          (worldWithEnv
            ["CLASSPATH='$CLASSPATH:$DITA_HOME/lib/foo.jar'; export CLASSPATH".toList])
          "/opt/app".toList = .ok jars ∧
      getClasspath
          (worldWithEnv
            ["CLASSPATH='$CLASSPATH:$DITA_HOME/lib/foo.jar'; export CLASSPATH".toList])
          "/opt/app".toList = .ok (stringsJoin jars [PathListSeparator]) ∧
      ∀ line ∈ ["CLASSPATH='$CLASSPATH:$DITA_HOME/lib/foo.jar'; export CLASSPATH".toList],
        HasPrefix line "CLASSPATH".toList = true →
          (∀ jars', scanLine "/opt/app".toList jars' line =
            .ok (jars' ++ [Join "/opt/app".toList (fragment line)])) ∧
          Join "/opt/app".toList (fragment line) ∈ jars :=
  ⟨rfl, long_lines_never_fail
    (worldWithEnv ["CLASSPATH='$CLASSPATH:$DITA_HOME/lib/foo.jar'; export CLASSPATH".toList])
    "/opt/app".toList
    ⟨["CLASSPATH='$CLASSPATH:$DITA_HOME/lib/foo.jar'; export CLASSPATH".toList], none⟩
    rfl rfl (by decide)⟩

end DitaWorker
